import Mathlib

/-!
# Verification of the `good_lp` HiGHS adapter (`src/solvers/highs.rs`)

A shallow embedding of the adapter that turns an abstract linear-programming
problem (variables with bounds, a linear objective, linear constraints) into
the row/column model of the HiGHS solver, invokes resolution, and decodes the
result.

Modelling conventions:
* `f64` is modelled as `ℚ`; the only arithmetic the adapter performs on
  floating-point values is negation of the constant term, which is exact.
* The external `highs` crate (columns, rows, model, statuses) is modelled as
  explicit data following its documented interface; the solver run itself is
  opaque and is passed to `solve` as a function `Highs.Model → Highs.SolvedModel`.
* A Rust panic from a checked slice index is modelled by returning `none`
  from the embedded operation.
-/

namespace Highs

/-- `highs::Col`: an opaque column handle, the ordinal of the column in the
model it was added to. -/
structure Col where
  id : Nat
deriving DecidableEq, Repr

/-- `highs::Sense`: the objective direction of the solver model. -/
inductive Sense
  | Maximise
  | Minimise
deriving DecidableEq, Repr

/-- One registered column: its objective factor and its feasible interval
`[low, high]` (the highs crate stores continuous-variable bounds as a closed
interval). -/
structure ColumnSpec where
  factor : ℚ
  low : ℚ
  high : ℚ
deriving DecidableEq, Repr

/-- The bound interval of a row; `none` on a side means unbounded there. -/
structure RowBounds where
  low : Option ℚ
  high : Option ℚ
deriving DecidableEq, Repr

/-- A sparse row: a bound interval plus (column, coefficient) pairs. -/
structure Row where
  bounds : RowBounds
  factors : List (Col × ℚ)
deriving DecidableEq, Repr

/-- `highs::RowProblem`: the columns and rows accumulated so far. -/
structure RowProblem where
  columns : List ColumnSpec
  rows : List Row
deriving DecidableEq, Repr

/-- `RowProblem::default()`: the empty problem. -/
def RowProblem.default : RowProblem := ⟨[], []⟩

/-- `RowProblem::add_column(factor, low..high)`: append a column and return
the updated problem together with the handle of the new column. -/
def RowProblem.add_column (p : RowProblem) (factor low high : ℚ) :
    RowProblem × Col :=
  ({ p with columns := p.columns ++ [⟨factor, low, high⟩] }, ⟨p.columns.length⟩)

/-- `RowProblem::add_row(bounds, factors)`: append a row.  (The crate also
returns a row handle; the adapter discards it, so it is omitted here.) -/
def RowProblem.add_row (p : RowProblem) (bounds : RowBounds)
    (factors : List (Col × ℚ)) : RowProblem :=
  { p with rows := p.rows ++ [⟨bounds, factors⟩] }

/-- `highs::Model`: the objective sense plus, once attached, the problem. -/
structure Model where
  sense : Sense
  problem : Option RowProblem
deriving DecidableEq, Repr

/-- `Model::new()`: a fresh model (default sense, no problem attached). -/
def Model.new : Model := ⟨Sense.Minimise, none⟩

/-- `Model::set_sense(sense)`. -/
def Model.set_sense (m : Model) (s : Sense) : Model := { m with sense := s }

/-- `Model::set_problem(problem)`: attach the accumulated columns and rows. -/
def Model.set_problem (m : Model) (p : RowProblem) : Model :=
  { m with problem := some p }

/-- `highs::HighsModelStatus`: the terminal status of a solve run. -/
inductive HighsModelStatus
  | NotSet
  | LoadError
  | ModelError
  | PresolveError
  | SolveError
  | PostsolveError
  | ModelEmpty
  | PrimalInfeasible
  | PrimalUnbounded
  | Optimal
  | ReachedDualObjectiveValueUpperBound
  | ReachedTimeLimit
  | ReachedIterationLimit
deriving DecidableEq, Repr

/-- `highs::Solution`: the raw primal vector, indexed by column ordinal. -/
structure Solution where
  columns : List ℚ
deriving DecidableEq, Repr

/-- The result of the external solve call: a terminal status together with
the solution the solver reports. -/
structure SolvedModel where
  status : HighsModelStatus
  solution : Solution
deriving DecidableEq, Repr

/-- `SolvedModel::get_solution()`. -/
def SolvedModel.get_solution (m : SolvedModel) : Solution := m.solution

end Highs

/-- `good_lp`'s `Variable`: an opaque identity with a stable zero-based
ordinal `index`. -/
structure Variable where
  index : Nat
deriving DecidableEq, Repr

/-- `VariableDefinition`: the bounds of one variable (`min`, `max`). -/
structure VariableDefinition where
  min : ℚ
  max : ℚ
deriving DecidableEq, Repr

/-- The linear part of an expression: its coefficient mapping, keyed by
variable (a hash map in the source; each variable appears at most once). -/
structure LinearExpression where
  coefficients : List (Variable × ℚ)
deriving DecidableEq, Repr

/-- `coefficients.get(&var)`: look a variable up in the coefficient map. -/
def LinearExpression.get (l : LinearExpression) (v : Variable) : Option ℚ :=
  (l.coefficients.find? (fun p => p.1 == v)).map (fun p => p.2)

/-- An affine expression: a linear part plus a scalar constant term. -/
structure Expression where
  linear : LinearExpression
  constant : ℚ
deriving DecidableEq, Repr

/-- `Expression::linear_coefficients()`: the (variable, coefficient) pairs of
the linear part. -/
def Expression.linear_coefficients (e : Expression) : List (Variable × ℚ) :=
  e.linear.coefficients

/-- `good_lp`'s `Constraint`: an expression compared against zero, either as
an equality (`expression == 0`) or an inequality (`expression <= 0`). -/
structure Constraint where
  expression : Expression
  is_equality : Bool
deriving DecidableEq, Repr

/-- `ObjectiveDirection`. -/
inductive ObjectiveDirection
  | Maximisation
  | Minimisation
deriving DecidableEq, Repr

/-- `UnsolvedProblem`: direction, ordered (variable, definition) pairs, and
the objective expression. -/
structure UnsolvedProblem where
  direction : ObjectiveDirection
  «variables» : List (Variable × VariableDefinition)
  objective : Expression
deriving DecidableEq, Repr

/-- `ResolutionError`: the solver-agnostic error taxonomy. -/
inductive ResolutionError
  | Infeasible
  | Unbounded
  | Other (reason : String)
deriving DecidableEq, Repr

/-- `HighsProblem`: the adapter's model state — the base model, the
accumulated row problem, and the index table from variable ordinal to
column handle. -/
structure HighsProblem where
  model : Highs.Model
  highs_problem : Highs.RowProblem
  columns : List Highs.Col
deriving DecidableEq, Repr

/-- `HighsSolution`: wraps the raw solver solution. -/
structure HighsSolution where
  solution : Highs.Solution
deriving DecidableEq, Repr

/-- The variable-registration loop of `highs`: for each (variable,
definition) pair in order, look up the objective coefficient (`unwrap_or(0)`),
add a column with interval `[min, max]`, and push the returned handle onto
the index table. -/
def addVariables (objective : Expression) :
    List (Variable × VariableDefinition) → Highs.RowProblem → List Highs.Col →
    Highs.RowProblem × List Highs.Col
  | [], p, cols => (p, cols)
  | (var, d) :: rest, p, cols =>
    let col_factor := (objective.linear.get var).getD 0
    let pc := p.add_column col_factor d.min d.max
    addVariables objective rest pc.1 (cols ++ [pc.2])

/-- `highs(to_solve)`: build a `HighsProblem` from an `UnsolvedProblem`. -/
def highs (to_solve : UnsolvedProblem) : HighsProblem :=
  let model := Highs.Model.new.set_sense
    (match to_solve.direction with
      | ObjectiveDirection.Maximisation => Highs.Sense.Maximise
      | ObjectiveDirection.Minimisation => Highs.Sense.Minimise)
  let pc := addVariables to_solve.objective to_solve.variables
    Highs.RowProblem.default []
  { model := model, highs_problem := pc.1, columns := pc.2 }

/-- `HighsProblem::into_inner()`: attach the accumulated problem to the base
model and return the raw model. -/
def HighsProblem.into_inner (self : HighsProblem) : Highs.Model :=
  self.model.set_problem self.highs_problem

/-- The factor iterator of `with`: resolve each (variable, coefficient) term
to a (column handle, coefficient) pair through the checked index
`columns[variable.index()]`; an out-of-bounds index is a panic of the whole
call, modelled as `none`. -/
def lookupFactors (columns : List Highs.Col) :
    List (Variable × ℚ) → Option (List (Highs.Col × ℚ))
  | [] => some []
  | vf :: rest =>
    match columns.get? vf.1.index, lookupFactors columns rest with
    | some col, some rest2 => some ((col, vf.2) :: rest2)
    | _, _ => none

/-- `HighsProblem::with(constraint)`: encode one constraint as a row with
bound `upper_bound = -constant` — interval `[upper_bound, upper_bound]` for
an equality, `(-inf, upper_bound]` otherwise. -/
def HighsProblem.«with» (self : HighsProblem) (constraint : Constraint) :
    Option HighsProblem :=
  let upper_bound := -constraint.expression.constant
  match lookupFactors self.columns constraint.expression.linear_coefficients with
  | none => none
  | some factors =>
    if constraint.is_equality then
      some { self with highs_problem :=
        self.highs_problem.add_row ⟨some upper_bound, some upper_bound⟩ factors }
    else
      some { self with highs_problem :=
        self.highs_problem.add_row ⟨none, some upper_bound⟩ factors }

/-- The status match of `solve`, factored out as a function of the solved
model, to compare `solve` against `into_inner`. -/
def statusOutcome (solved : Highs.SolvedModel) :
    Except ResolutionError HighsSolution :=
  match solved.status with
  | Highs.HighsModelStatus.NotSet =>
      Except.error (ResolutionError.Other "NotSet")
  | Highs.HighsModelStatus.LoadError =>
      Except.error (ResolutionError.Other "LoadError")
  | Highs.HighsModelStatus.ModelError =>
      Except.error (ResolutionError.Other "ModelError")
  | Highs.HighsModelStatus.PresolveError =>
      Except.error (ResolutionError.Other "PresolveError")
  | Highs.HighsModelStatus.SolveError =>
      Except.error (ResolutionError.Other "SolveError")
  | Highs.HighsModelStatus.PostsolveError =>
      Except.error (ResolutionError.Other "PostsolveError")
  | Highs.HighsModelStatus.ModelEmpty =>
      Except.error (ResolutionError.Other "ModelEmpty")
  | Highs.HighsModelStatus.PrimalInfeasible =>
      Except.error ResolutionError.Infeasible
  | Highs.HighsModelStatus.PrimalUnbounded =>
      Except.error ResolutionError.Unbounded
  | _ => Except.ok ⟨solved.get_solution⟩

/-- `HighsProblem::solve()`: attach the problem to the base model, run the
external solver (the opaque blocking call, passed in as `externalSolve`),
and map the terminal status to an outcome. -/
def HighsProblem.solve (externalSolve : Highs.Model → Highs.SolvedModel)
    (self : HighsProblem) : Except ResolutionError HighsSolution :=
  let model := self.model.set_problem self.highs_problem
  let solved := externalSolve model
  match solved.status with
  | Highs.HighsModelStatus.NotSet =>
      Except.error (ResolutionError.Other "NotSet")
  | Highs.HighsModelStatus.LoadError =>
      Except.error (ResolutionError.Other "LoadError")
  | Highs.HighsModelStatus.ModelError =>
      Except.error (ResolutionError.Other "ModelError")
  | Highs.HighsModelStatus.PresolveError =>
      Except.error (ResolutionError.Other "PresolveError")
  | Highs.HighsModelStatus.SolveError =>
      Except.error (ResolutionError.Other "SolveError")
  | Highs.HighsModelStatus.PostsolveError =>
      Except.error (ResolutionError.Other "PostsolveError")
  | Highs.HighsModelStatus.ModelEmpty =>
      Except.error (ResolutionError.Other "ModelEmpty")
  | Highs.HighsModelStatus.PrimalInfeasible =>
      Except.error ResolutionError.Infeasible
  | Highs.HighsModelStatus.PrimalUnbounded =>
      Except.error ResolutionError.Unbounded
  | _ => Except.ok ⟨solved.get_solution⟩

/-- `Solution::value(&self, variable)`: read
`self.solution.columns()[variable.index()]` through a checked index; an
out-of-bounds index is a panic, modelled as `none`. -/
def HighsSolution.value (self : HighsSolution) (v : Variable) : Option ℚ :=
  self.solution.columns.get? v.index

/-- One call of `value` through a shared reference (`&self`): the result
together with the receiver state after the call.  Rust's shared borrow
gives the method no mutable access, so the receiver is returned as-is. -/
def HighsSolution.query (self : HighsSolution) (v : Variable) :
    Option ℚ × HighsSolution :=
  (self.value v, self)

/-- The row prescribed by the constraint-encoder contract (spec §4.2),
stated in the spec's own words: compute `bound = -constant(expression)`;
interval `[bound, bound]` for an equality, `(-inf, bound]` otherwise; the
coefficient list pairs `table[variable.index()]` with the coefficient of
each term of the linear part.  (The `getD` default is never reached under
the contract's precondition that every referenced variable is in the
table.) -/
def specRow (table : List Highs.Col) (c : Constraint) : Highs.Row :=
  { bounds :=
      if c.is_equality then
        ⟨some (-c.expression.constant), some (-c.expression.constant)⟩
      else
        ⟨none, some (-c.expression.constant)⟩,
    factors := c.expression.linear_coefficients.map
      (fun vf => ((table.get? vf.1.index).getD ⟨0⟩, vf.2)) }

/-! ### Concrete inputs used by the witness theorems -/

/-- A one-variable problem: maximise `x` for `x ∈ [0, 10]`. -/
def exUnsolved : UnsolvedProblem :=
  { direction := ObjectiveDirection.Maximisation,
    «variables» := [(⟨0⟩, ⟨0, 10⟩)],
    objective := { linear := ⟨[(⟨0⟩, 1)]⟩, constant := 0 } }

/-- The model built from `exUnsolved`. -/
def exProblem : HighsProblem := highs exUnsolved

/-- The constraint `x - 5 == 0` (coefficient 1, constant -5, equality). -/
def exEqConstraint : Constraint :=
  { expression := { linear := ⟨[(⟨0⟩, 1)]⟩, constant := -5 },
    is_equality := true }

/-- A constraint referencing variable ordinal 5, which is out of range for
the one-column `exProblem`. -/
def exBadConstraint : Constraint :=
  { expression := { linear := ⟨[(⟨5⟩, 1)]⟩, constant := 0 },
    is_equality := false }

/-- `exProblem` after encoding `exEqConstraint`: one row with bound
interval `[5, 5]` on column 0. -/
def exProblemWithRow : HighsProblem :=
  { exProblem with highs_problem :=
      { exProblem.highs_problem with
          rows := exProblem.highs_problem.rows ++
            [{ bounds := ⟨some 5, some 5⟩, factors := [(⟨0⟩, 1)] }] } }

/-- A one-column solved primal vector. -/
def exSolution : HighsSolution := ⟨⟨[10]⟩⟩

/-! ## Helper lemmas -/

/-- Complete description of the variable-registration loop: columns are
appended per input pair in order, rows are untouched, and the index table
receives consecutive handles starting at the current column count. -/
theorem addVariables_spec (o : Expression)
    (vs : List (Variable × VariableDefinition))
    (p : Highs.RowProblem) (cols : List Highs.Col) :
    (addVariables o vs p cols).1.columns =
        p.columns ++ vs.map (fun vd =>
          ⟨(o.linear.get vd.1).getD 0, vd.2.min, vd.2.max⟩)
  ∧ (addVariables o vs p cols).1.rows = p.rows
  ∧ (addVariables o vs p cols).2 =
        cols ++ (List.range vs.length).map
          (fun j => ⟨p.columns.length + j⟩) := by
  induction vs generalizing p cols with
  | nil => simp [addVariables]
  | cons vd rest ih =>
    obtain ⟨var, d⟩ := vd
    have h := ih
      { columns := p.columns ++ [⟨(o.linear.get var).getD 0, d.min, d.max⟩],
        rows := p.rows }
      (cols ++ [⟨p.columns.length⟩])
    refine ⟨?_, ?_, ?_⟩
    · rw [show addVariables o ((var, d) :: rest) p cols =
        addVariables o rest
          { columns := p.columns ++ [⟨(o.linear.get var).getD 0, d.min, d.max⟩],
            rows := p.rows }
          (cols ++ [⟨p.columns.length⟩]) from rfl]
      rw [h.1]; simp
    · rw [show addVariables o ((var, d) :: rest) p cols =
        addVariables o rest
          { columns := p.columns ++ [⟨(o.linear.get var).getD 0, d.min, d.max⟩],
            rows := p.rows }
          (cols ++ [⟨p.columns.length⟩]) from rfl]
      exact h.2.1
    · rw [show addVariables o ((var, d) :: rest) p cols =
        addVariables o rest
          { columns := p.columns ++ [⟨(o.linear.get var).getD 0, d.min, d.max⟩],
            rows := p.rows }
          (cols ++ [⟨p.columns.length⟩]) from rfl]
      rw [h.2.2]
      simp only [List.length_cons]
      rw [List.range_succ_eq_map]
      simp only [List.length_append, List.length_cons, List.length_nil,
        List.map_cons, List.map_map, List.append_assoc, List.cons_append,
        List.nil_append, List.singleton_append]
      congr 1
      congr 1
      simp only [List.map_inj_left, Function.comp_apply, Highs.Col.mk.injEq]
      intro a _
      omega

/-- When every index referenced by the terms is within the column table,
`lookupFactors` succeeds and produces the paired lookups in order. -/
theorem lookupFactors_some (columns : List Highs.Col)
    (terms : List (Variable × ℚ))
    (h : ∀ vf ∈ terms, vf.1.index < columns.length) :
    lookupFactors columns terms =
      some (terms.map (fun vf => ((columns.get? vf.1.index).getD ⟨0⟩, vf.2))) := by
  induction terms with
  | nil => rfl
  | cons vf rest ih =>
    have h1 : vf.1.index < columns.length := h vf (by simp)
    have h2 := ih (fun x hx => h x (by simp [hx]))
    rw [lookupFactors, h2, List.get?_eq_get h1]
    simp [List.getElem?_eq_getElem h1]

/-- When some term references an index outside the column table,
`lookupFactors` fails (the panic of the checked index). -/
theorem lookupFactors_none (columns : List Highs.Col)
    (terms : List (Variable × ℚ))
    (h : ∃ vf ∈ terms, columns.length ≤ vf.1.index) :
    lookupFactors columns terms = none := by
  induction terms with
  | nil => simp at h
  | cons vf rest ih =>
    obtain ⟨x, hx, hlen⟩ := h
    rcases List.mem_cons.mp hx with rfl | hx2
    · have hnone : columns.get? x.1.index = none := List.get?_eq_none.mpr hlen
      cases hr : lookupFactors columns rest <;>
        rw [lookupFactors, hnone, hr]
    · have hrest := ih ⟨x, hx2, hlen⟩
      cases hc : columns.get? vf.1.index <;>
        rw [lookupFactors, hc, hrest]

/-! ## Claim theorems -/

/-- C2: for every constraint added via `with`, the encoder computes
`bound = -constant(expression)`; an equality constraint appends a row with
bound interval `[bound, bound]`, any other constraint a row with interval
`(-inf, bound]`, and the row's coefficient list pairs `table[variable.index()]`
with the coefficient for each term of the expression's linear part. -/
theorem with_encodes_constraint (self : HighsProblem) (c : Constraint)
    (h : ∀ vf ∈ c.expression.linear_coefficients,
        vf.1.index < self.columns.length) :
    self.«with» c = some { self with highs_problem :=
      { self.highs_problem with
          rows := self.highs_problem.rows ++ [specRow self.columns c] } } := by
  unfold HighsProblem.«with»
  rw [lookupFactors_some self.columns _ h]
  cases hc : c.is_equality <;>
    simp [Highs.RowProblem.add_row, specRow, hc]

/-- C2 witness: the equality constraint `x - 5 == 0` on the one-variable
model produces a row with bound interval `[5, 5]` and coefficient 1 on
column 0. -/
theorem with_encodes_constraint_witness :
    exProblem.«with» exEqConstraint = some exProblemWithRow := by
  have h := with_encodes_constraint exProblem exEqConstraint (by decide)
  exact h.trans (by decide)

/-- C9: the column-handle lookup in `with` is a bounds-checked index: when
every variable of the constraint's expression has index strictly below the
number of registered columns the call succeeds, and a violating index makes
the whole call fault (checked index panic) rather than produce a row. -/
theorem with_lookup_checked (self : HighsProblem) (c : Constraint) :
    ((∀ vf ∈ c.expression.linear_coefficients,
        vf.1.index < self.columns.length) → (self.«with» c).isSome = true)
  ∧ ((∃ vf ∈ c.expression.linear_coefficients,
        self.columns.length ≤ vf.1.index) → self.«with» c = none) := by
  constructor
  · intro h
    unfold HighsProblem.«with»
    rw [lookupFactors_some self.columns _ h]
    cases hc : c.is_equality <;> simp [hc]
  · intro h
    unfold HighsProblem.«with»
    rw [lookupFactors_none self.columns _ h]

/-- C9 witness: on the one-column model, an in-range constraint encodes
successfully and a constraint referencing ordinal 5 faults. -/
theorem with_lookup_checked_witness :
    (exProblem.«with» exEqConstraint).isSome = true
  ∧ exProblem.«with» exBadConstraint = none :=
  ⟨(with_lookup_checked exProblem exEqConstraint).1 (by decide),
   (with_lookup_checked exProblem exBadConstraint).2 (by decide)⟩

/-- C8: `with` changes only the accumulated row set: the index table, the
base model (hence its objective sense) and the registered solver columns
are all left unchanged, and exactly one row is appended. -/
theorem with_frame (self : HighsProblem) (c : Constraint) (p' : HighsProblem)
    (h : self.«with» c = some p') :
    p'.columns = self.columns
  ∧ p'.model = self.model
  ∧ p'.model.sense = self.model.sense
  ∧ p'.highs_problem.columns = self.highs_problem.columns
  ∧ ∃ r, p'.highs_problem.rows = self.highs_problem.rows ++ [r] := by
  unfold HighsProblem.«with» at h
  cases hl : lookupFactors self.columns c.expression.linear_coefficients with
  | none =>
    rw [hl] at h
    simp at h
  | some factors =>
    rw [hl] at h
    cases hc : c.is_equality <;> rw [hc] at h <;> simp at h <;> subst h <;>
      exact ⟨rfl, rfl, rfl, rfl, ⟨_, rfl⟩⟩

/-- C8 witness: encoding `x - 5 == 0` on the one-variable model leaves the
index table and the base model untouched. -/
theorem with_frame_witness :
    exProblemWithRow.columns = exProblem.columns
  ∧ exProblemWithRow.model = exProblem.model := by
  have h := with_frame exProblem exEqConstraint exProblemWithRow (by decide)
  exact ⟨h.1, h.2.1⟩

/-- C3: the model builder creates exactly one solver column per input
variable, in input order, and the column handle returned for the i-th input
variable is stored at index i of the index table, so that
`AbstractVariable.index()` is a valid direct index into the table. -/
theorem highs_index_table (p : UnsolvedProblem) :
    (highs p).highs_problem.columns.length = p.«variables».length
  ∧ (highs p).columns.length = p.«variables».length
  ∧ ∀ i : Nat, (highs p).columns.get? i =
      if i < p.«variables».length then some ⟨i⟩ else none := by
  have h := addVariables_spec p.objective p.«variables»
    Highs.RowProblem.default []
  have hcols : (highs p).columns =
      (addVariables p.objective p.«variables» Highs.RowProblem.default []).2 :=
    rfl
  have hpcols : (highs p).highs_problem =
      (addVariables p.objective p.«variables» Highs.RowProblem.default []).1 :=
    rfl
  refine ⟨?_, ?_, ?_⟩
  · rw [hpcols, h.1]
    simp [Highs.RowProblem.default]
  · rw [hcols, h.2.2]
    simp
  · intro i
    rw [hcols, h.2.2]
    simp only [List.nil_append, Highs.RowProblem.default]
    by_cases hi : i < p.«variables».length
    · rw [if_pos hi, List.get?_map, List.get?_range hi]
      simp
    · rw [if_neg hi]
      apply List.get?_eq_none.mpr
      simp only [List.length_map, List.length_range]
      omega

/-- C3 witness: the one-variable problem yields one column and the handle
for variable 0 stored at index 0. -/
theorem highs_index_table_witness :
    (highs exUnsolved).highs_problem.columns.length = 1
  ∧ (highs exUnsolved).columns.length = 1
  ∧ (highs exUnsolved).columns.get? 0 = some ⟨0⟩ := by
  have h := highs_index_table exUnsolved
  refine ⟨h.1.trans (by decide), h.2.1.trans (by decide), ?_⟩
  exact (h.2.2 0).trans (by decide)

/-- C4: every column created by the model builder has as objective factor
the coefficient looked up in the objective's coefficient mapping (0 when
the variable is absent), and as feasible interval the closed interval
`[min, max]` from the variable's definition. -/
theorem highs_column_factor_and_interval (p : UnsolvedProblem) (i : Nat)
    (h : i < p.«variables».length) :
    (highs p).highs_problem.columns.get? i =
      some ⟨(p.objective.linear.get (p.«variables».get ⟨i, h⟩).1).getD 0,
            (p.«variables».get ⟨i, h⟩).2.min,
            (p.«variables».get ⟨i, h⟩).2.max⟩ := by
  have hs := addVariables_spec p.objective p.«variables»
    Highs.RowProblem.default []
  have hpcols : (highs p).highs_problem =
      (addVariables p.objective p.«variables» Highs.RowProblem.default []).1 :=
    rfl
  rw [hpcols, hs.1]
  simp only [Highs.RowProblem.default, List.nil_append]
  rw [List.get?_map, List.get?_eq_get h]
  rfl

/-- C4 witness: in the one-variable problem maximising `x`, the single
column has objective factor 1 and interval `[0, 10]`. -/
theorem highs_column_factor_and_interval_witness :
    (highs exUnsolved).highs_problem.columns.get? 0 = some ⟨1, 0, 10⟩ := by
  have h := highs_column_factor_and_interval exUnsolved 0 (by decide)
  exact h.trans (by decide)

/-- C5: for every solution and every variable that was part of the solved
model (its index is within the primal vector), `value` returns exactly the
element of the raw primal vector at position `variable.index()`. -/
theorem value_reads_primal (s : HighsSolution) (v : Variable)
    (h : v.index < s.solution.columns.length) :
    s.value v = some (s.solution.columns.get ⟨v.index, h⟩) := by
  unfold HighsSolution.value
  exact List.get?_eq_get h

/-- C5 witness: on the primal vector `[10]`, the variable with ordinal 0
reads back 10. -/
theorem value_reads_primal_witness : exSolution.value ⟨0⟩ = some 10 := by
  have h := value_reads_primal exSolution ⟨0⟩ (by decide)
  exact h.trans (by decide)

/-- C6: `value` on a variable whose index is in the solved model's column
range always returns a value (the out-of-bounds branch is unreachable),
while an out-of-range index is the checked-index fault, never a recoverable
result. -/
theorem value_oob_fault (s : HighsSolution) (v : Variable) :
    (v.index < s.solution.columns.length → (s.value v).isSome = true)
  ∧ (s.solution.columns.length ≤ v.index → s.value v = none) := by
  constructor
  · intro h
    unfold HighsSolution.value
    rw [List.get?_eq_get h]
    rfl
  · intro h
    unfold HighsSolution.value
    exact List.get?_eq_none.mpr h

/-- C6 witness: on the one-entry primal vector, ordinal 0 reads a value and
ordinal 3 faults. -/
theorem value_oob_fault_witness :
    (exSolution.value ⟨0⟩).isSome = true ∧ exSolution.value ⟨3⟩ = none :=
  ⟨(value_oob_fault exSolution ⟨0⟩).1 (by decide),
   (value_oob_fault exSolution ⟨3⟩).2 (by decide)⟩

/-- C7: querying a solution through `value` performs no mutation — the
receiver of a call is returned unchanged — and repeated calls on the same
solution return the same result every time. -/
theorem value_query_immutable (s : HighsSolution) (v : Variable) :
    (s.query v).2 = s
  ∧ ((s.query v).2.query v).1 = (s.query v).1 :=
  ⟨rfl, rfl⟩

/-- C7 witness: the property at the concrete one-entry solution. -/
theorem value_query_immutable_witness :
    (exSolution.query ⟨0⟩).2 = exSolution
  ∧ ((exSolution.query ⟨0⟩).2.query ⟨0⟩).1 = (exSolution.query ⟨0⟩).1 :=
  value_query_immutable exSolution ⟨0⟩

/-- C1: the status mapping of `solve` is exhaustive and total:
`PrimalInfeasible` maps to `ResolutionError.Infeasible`, `PrimalUnbounded`
to `ResolutionError.Unbounded`, each of the seven setup/internal failure
statuses maps to `ResolutionError.Other` carrying that status's own name
verbatim, and every other status maps to success wrapping the returned
primal vector as a solution. -/
theorem solve_status_mapping (self : HighsProblem) (sol : Highs.Solution) :
    HighsProblem.solve (fun _ => ⟨Highs.HighsModelStatus.NotSet, sol⟩) self
        = Except.error (ResolutionError.Other "NotSet")
  ∧ HighsProblem.solve (fun _ => ⟨Highs.HighsModelStatus.LoadError, sol⟩) self
        = Except.error (ResolutionError.Other "LoadError")
  ∧ HighsProblem.solve (fun _ => ⟨Highs.HighsModelStatus.ModelError, sol⟩) self
        = Except.error (ResolutionError.Other "ModelError")
  ∧ HighsProblem.solve (fun _ => ⟨Highs.HighsModelStatus.PresolveError, sol⟩) self
        = Except.error (ResolutionError.Other "PresolveError")
  ∧ HighsProblem.solve (fun _ => ⟨Highs.HighsModelStatus.SolveError, sol⟩) self
        = Except.error (ResolutionError.Other "SolveError")
  ∧ HighsProblem.solve (fun _ => ⟨Highs.HighsModelStatus.PostsolveError, sol⟩) self
        = Except.error (ResolutionError.Other "PostsolveError")
  ∧ HighsProblem.solve (fun _ => ⟨Highs.HighsModelStatus.ModelEmpty, sol⟩) self
        = Except.error (ResolutionError.Other "ModelEmpty")
  ∧ HighsProblem.solve (fun _ => ⟨Highs.HighsModelStatus.PrimalInfeasible, sol⟩) self
        = Except.error ResolutionError.Infeasible
  ∧ HighsProblem.solve (fun _ => ⟨Highs.HighsModelStatus.PrimalUnbounded, sol⟩) self
        = Except.error ResolutionError.Unbounded
  ∧ ∀ st : Highs.HighsModelStatus,
      st ∉ [Highs.HighsModelStatus.NotSet, Highs.HighsModelStatus.LoadError,
            Highs.HighsModelStatus.ModelError, Highs.HighsModelStatus.PresolveError,
            Highs.HighsModelStatus.SolveError, Highs.HighsModelStatus.PostsolveError,
            Highs.HighsModelStatus.ModelEmpty, Highs.HighsModelStatus.PrimalInfeasible,
            Highs.HighsModelStatus.PrimalUnbounded] →
        HighsProblem.solve (fun _ => ⟨st, sol⟩) self = Except.ok ⟨sol⟩ := by
  refine ⟨rfl, rfl, rfl, rfl, rfl, rfl, rfl, rfl, rfl, ?_⟩
  intro st hst
  cases st <;> first | rfl | exact absurd (by decide) hst

/-- C1 witness: an `Optimal` run on the one-variable model succeeds with
the returned primal vector. -/
theorem solve_status_mapping_witness :
    HighsProblem.solve
        (fun _ => ⟨Highs.HighsModelStatus.Optimal, ⟨[10]⟩⟩) exProblem
      = Except.ok ⟨⟨[10]⟩⟩ :=
  (solve_status_mapping exProblem ⟨[10]⟩).2.2.2.2.2.2.2.2.2
    Highs.HighsModelStatus.Optimal (by decide)

/-- C10: `into_inner` performs exactly the finalization step of `solve` —
attaching the accumulated columns and rows to the base model via
`set_problem` — and the model it returns is the finalized model that
`solve` passes to the external solve operation. -/
theorem into_inner_matches_solve (self : HighsProblem)
    (externalSolve : Highs.Model → Highs.SolvedModel) :
    self.into_inner = self.model.set_problem self.highs_problem
  ∧ self.solve externalSolve = statusOutcome (externalSolve self.into_inner) := by
  refine ⟨rfl, ?_⟩
  cases h : (externalSolve (self.model.set_problem self.highs_problem)).status <;>
    simp [HighsProblem.solve, statusOutcome, HighsProblem.into_inner, h]

/-- C10 witness: on the one-variable model with a constant external solver,
`solve` decodes exactly the status of the solver run on `into_inner`. -/
theorem into_inner_matches_solve_witness :
    exProblem.into_inner = exProblem.model.set_problem exProblem.highs_problem
  ∧ exProblem.solve (fun _ => ⟨Highs.HighsModelStatus.PrimalInfeasible, ⟨[]⟩⟩)
      = statusOutcome ((fun _ =>
          (⟨Highs.HighsModelStatus.PrimalInfeasible, ⟨[]⟩⟩ : Highs.SolvedModel))
        exProblem.into_inner) :=
  into_inner_matches_solve exProblem
    (fun _ => ⟨Highs.HighsModelStatus.PrimalInfeasible, ⟨[]⟩⟩)
